import Mathlib

/-!
Verification of the guardrail / lifecycle subsystem.

This file gives a shallow embedding of the guardrail decision engine
(`src/middleware/guardrails/core.py`), the tool-name normalization helper
(`src/tools/mcp_registry.py`) and the Playwright session lifecycle tracker
(`src/tools/mcp/playwright.py`), and proves the testable properties stated
in the specification against that embedding.

Conventions of the embedding:
- Python tuples/lists become `List Val`, dicts become association lists
  `List (String × Val)` (Python dicts iterate in insertion order).
- Raising `GuardrailViolation` becomes returning `some violation`;
  returning normally becomes `none`.
- Python sets of strings become `List String`; every use in the source is a
  membership or any-match test, so the result is order independent.
- String lowering models `str.lower()` on the ASCII range, which covers all
  tool names and patterns appearing in the sources.
- String helpers are written over `List Char` by structural recursion so
  that every definition evaluates inside the kernel.
-/

/-- A Python value as it appears in tool-call arguments: a string, a list,
a dict, or anything else (numbers, None, ...), whose precise content the
guardrail code never inspects. -/
inductive Val where
  | str (s : String)
  | list (l : List Val)
  | dict (d : List (String × Val))
  | other

/-- ASCII lowering of one character, modelling `str.lower()` on the ASCII
range (all tool names and patterns in the sources are ASCII). -/
def lower_char (c : Char) : Char :=
  if 65 ≤ c.toNat && c.toNat ≤ 90 then Char.ofNat (c.toNat + 32) else c

/-- Python `s.lower()` (ASCII range). -/
def lower_str (s : String) : String := ⟨s.data.map lower_char⟩

/-- Python `s.replace("\\", "/")`: the pattern is a single character, so the
replacement is a character map. -/
def slashes (s : String) : String :=
  ⟨s.data.map (fun c => if c == '\\' then '/' else c)⟩

/-- The composite `path.lower().replace("\\", "/")`, the normalization applied to every
path before matching. -/
def norm_path (p : String) : String := slashes (lower_str p)

/-- Python `s.split("/")` on the character list (Python `str.split` with an
explicit separator; never returns an empty list). -/
def split_slash : List Char → List (List Char)
  | [] => [[]]
  | c :: rest =>
    let r := split_slash rest
    if c == '/' then [] :: r
    else
      match r with
      | [] => [[c]]
      | s :: ss => (c :: s) :: ss

/-- The expression `path_lower.split("/")[-1]`: the filename component of a normalized
path. -/
def file_name_of (p : String) : String :=
  ⟨(split_slash (norm_path p).data).getLastD []⟩

/-- Python `s.rstrip("/")`. -/
def rstrip_slash (s : String) : String :=
  ⟨(s.data.reverse.dropWhile (fun c => c == '/')).reverse⟩

/-- Python `s.startswith(pre)` (here `pre` is the second argument). -/
def starts_with (s pre : String) : Bool := pre.data.isPrefixOf s.data

/-- The Python substring test `needle in hay`, on character lists. -/
def substr_chars : List Char → List Char → Bool
  | needle, [] => needle.isEmpty
  | needle, c :: t => needle.isPrefixOf (c :: t) || substr_chars needle t

/-- The Python substring test `needle in hay`. -/
def str_in (needle hay : String) : Bool := substr_chars needle.data hay.data

/-- Containment `s.contains c` on the underlying character list. -/
def has_char (s : String) (c : Char) : Bool := s.data.contains c

/-!
`fnmatch.fnmatch` (the glob matcher used for sensitive/safe patterns).
The callers lower-case both arguments first, and on POSIX `fnmatch` does no
further case normalization, so the matcher itself is case sensitive.
Supported syntax, as in Python: `*`, `?`, `[seq]` (with `!` negation,
leading `]` literal, and `a-b` ranges); an unterminated `[` is literal.
-/

/-- Scan the body of a `[...]` character class up to the closing `]`.
Returns the class characters and the rest of the pattern. -/
def scan_class : List Char → Option (List Char × List Char)
  | [] => none
  | c :: rest =>
    if c == ']' then some ([], rest)
    else
      match scan_class rest with
      | none => none
      | some (cls, r) => some (c :: cls, r)

/-- After an opening `[`: is the class negated by a leading `!`? -/
def bracket_neg (cs : List Char) : Bool := cs.head? == some '!'

/-- After an opening `[` and the optional `!`, a leading `]` is a literal
class member. Returns that optional literal member and the characters the
closing `]` is searched in. -/
def bracket_body (cs : List Char) : List Char × List Char :=
  let cs1 := if bracket_neg cs then cs.drop 1 else cs
  if cs1.head? == some ']' then ([']'], cs1.drop 1) else ([], cs1)

/-- After an opening `[`, parse the optional `!` negation, an optional
leading literal `]`, and the class body. `none` means no closing `]`
(the `[` is then a literal character). -/
def parse_bracket (cs : List Char) : Option (Bool × List Char × List Char) :=
  match scan_class (bracket_body cs).2 with
  | none => none
  | some (cls, r) => some (bracket_neg cs, (bracket_body cs).1 ++ cls, r)

/-- Membership of a character in a parsed class body, with `a-b` ranges. -/
def class_match : List Char → Char → Bool
  | [], _ => false
  | a :: '-' :: b :: rest, c =>
    (decide (a ≤ c) && decide (c ≤ b)) || class_match rest c
  | a :: rest, c => a == c || class_match rest c

theorem scan_class_length :
    ∀ (cs cls r : List Char), scan_class cs = some (cls, r) → r.length < cs.length := by
  intro cs
  induction cs with
  | nil => intro cls r h; simp [scan_class] at h
  | cons c rest ih =>
    intro cls r h
    rw [scan_class] at h
    split at h
    · simp only [Option.some.injEq, Prod.mk.injEq] at h
      obtain ⟨-, rfl⟩ := h
      simp
    · cases heq : scan_class rest with
      | none => rw [heq] at h; exact absurd h (by simp)
      | some p =>
        rw [heq] at h
        obtain ⟨cls0, r0⟩ := p
        simp only [Option.some.injEq, Prod.mk.injEq] at h
        obtain ⟨-, rfl⟩ := h
        have := ih cls0 r0 heq
        simp only [List.length_cons]
        omega

theorem bracket_body_length (cs : List Char) : (bracket_body cs).2.length ≤ cs.length := by
  simp only [bracket_body]
  split <;> split <;> simp_all

theorem parse_bracket_length :
    ∀ (cs : List Char) (neg : Bool) (cls r : List Char),
      parse_bracket cs = some (neg, cls, r) → r.length < cs.length := by
  intro cs neg cls r h
  unfold parse_bracket at h
  cases heq : scan_class (bracket_body cs).2 with
  | none => rw [heq] at h; exact absurd h (by simp)
  | some p =>
    obtain ⟨cls0, r0⟩ := p
    rw [heq] at h
    simp only [Option.some.injEq, Prod.mk.injEq] at h
    obtain ⟨-, -, rfl⟩ := h
    have h1 := scan_class_length _ _ _ heq
    have h2 := bracket_body_length cs
    omega

/-- One step of the glob matcher, abstracted over the recursive call.
Every recursive call is on a strictly smaller combined length
(`glob_step_congr` below), which is why the fuel in `glob_match` never
runs out. -/
def glob_step (recur : List Char → List Char → Bool) (pat s : List Char) : Bool :=
  match pat, s with
  | [], [] => true
  | [], _ :: _ => false
  | '*' :: ps, [] => recur ps []
  | '*' :: ps, c :: cs => recur ps (c :: cs) || recur ('*' :: ps) cs
  | '?' :: _, [] => false
  | '?' :: ps, _ :: cs => recur ps cs
  | '[' :: ps, cs =>
    match parse_bracket ps with
    | some (neg, cls, rest) =>
      match cs with
      | [] => false
      | c :: cs' => (class_match cls c != neg) && recur rest cs'
    | none =>
      match cs with
      | '[' :: cs' => recur ps cs'
      | _ => false
  | p :: ps, c :: cs => p == c && recur ps cs
  | _ :: _, [] => false

/-- The glob matcher with an explicit structural recursion bound. -/
def glob_fuel : Nat → List Char → List Char → Bool
  | 0, _, _ => false
  | f + 1, pat, s => glob_step (glob_fuel f) pat s

/-- Does the glob pattern `pat` match `s`? The bound strictly dominates
every chain of recursive calls (`glob_fuel_congr`), so the `0` case of
`glob_fuel` is never reached. -/
def glob_match (pat s : List Char) : Bool :=
  glob_fuel (pat.length + s.length + 1) pat s

theorem glob_step_congr (r1 r2 : List Char → List Char → Bool) (pat s : List Char)
    (h : ∀ p' s', p'.length + s'.length < pat.length + s.length → r1 p' s' = r2 p' s') :
    glob_step r1 pat s = glob_step r2 pat s := by
  unfold glob_step
  repeat' split
  all_goals try rfl
  all_goals try (apply h; simp only [List.length_cons]; omega)
  all_goals try (congr 1 <;> (apply h; simp only [List.length_cons]; omega))
  all_goals rename_i hpb _ _ _
  all_goals have := parse_bracket_length _ _ _ _ hpb
  all_goals congr 1
  all_goals apply h
  all_goals simp only [List.length_cons]
  all_goals omega

/-- Any two sufficient fuel values give the same verdict: the fuel in
`glob_match` is irrelevant. -/
theorem glob_fuel_congr :
    ∀ (f g : Nat) (pat s : List Char), pat.length + s.length < f →
      pat.length + s.length < g → glob_fuel f pat s = glob_fuel g pat s := by
  intro f
  induction f with
  | zero => intro g pat s hf; exact absurd hf (by omega)
  | succ f ih =>
    intro g pat s hf hg
    match g with
    | 0 => exact absurd hg (by omega)
    | g + 1 =>
      show glob_step (glob_fuel f) pat s = glob_step (glob_fuel g) pat s
      exact glob_step_congr _ _ pat s (fun p' s' hlt => ih g p' s' (by omega) (by omega))

/-- Python `fnmatch.fnmatch(name, pattern)` (callers pass both already lowered). -/
def fnmatch (name pattern : String) : Bool := glob_match pattern.data name.data

/-!
Data model: `GuardrailViolation`, `GuardrailConfig` (the PolicyConfig of
the spec) and `ServerGuardrailRules` (the GuardrailRuleSet of the spec),
from `src/middleware/guardrails/core.py` and `src/tools/mcp_registry.py`.
The process-wide registry consulted by `get_all_guardrail_rules()` is made
explicit: every aggregating function takes the list of registered rule
sets as an argument.
-/

/-- The exception raised when a guardrail is violated. -/
structure GuardrailViolation where
  message : String
  tool_name : String
  violation_type : String
deriving DecidableEq

/-- Policy object `GuardrailConfig`, per run (the PolicyConfig of the spec;
what the spec calls `current_principal_id` is `current_user_id` in the
source). Defaults are the field defaults of the source. -/
structure GuardrailConfig where
  read_only : Bool := true
  block_sensitive_files : Bool := true
  sensitive_patterns : List String := []
  safe_patterns : List String := []
  blocked_tools : List String := []
  allowed_tools : Option (List String) := none
  log_blocked_attempts : Bool := true
  current_user_id : Option String := none
  safe_zone_paths : List String := ["data/"]

/-- Per-server rule contribution `ServerGuardrailRules`. A custom check
receives `(tool_name, args, kwargs, config)` and raises (returns `some`)
to block. -/
structure ServerGuardrailRules where
  write_tools : List String := []
  read_only_tools : List String := []
  sensitive_file_patterns : List String := []
  sensitive_path_patterns : List String := []
  safe_file_patterns : List String := []
  custom_check :
    Option (String → List Val → List (String × Val) → GuardrailConfig →
            Option GuardrailViolation) := none

/-- Method `GuardrailConfig.get_all_sensitive_patterns`: config patterns
unioned with the sensitive file patterns of every registered rule set. -/
def get_all_sensitive_patterns (config : GuardrailConfig)
    (rules : List ServerGuardrailRules) : List String :=
  config.sensitive_patterns ++ (rules.map (fun r => r.sensitive_file_patterns)).flatten

/-- Method `GuardrailConfig.get_all_sensitive_path_patterns`. -/
def get_all_sensitive_path_patterns (rules : List ServerGuardrailRules) : List String :=
  (rules.map (fun r => r.sensitive_path_patterns)).flatten

/-- Method `GuardrailConfig.get_all_safe_patterns`. -/
def get_all_safe_patterns (config : GuardrailConfig)
    (rules : List ServerGuardrailRules) : List String :=
  config.safe_patterns ++ (rules.map (fun r => r.safe_file_patterns)).flatten

/-- Method `GuardrailConfig.get_all_blocked_tools`: the explicit blocklist, plus
every registered write tool when the policy is read-only. -/
def get_all_blocked_tools (config : GuardrailConfig)
    (rules : List ServerGuardrailRules) : List String :=
  config.blocked_tools ++
    (if config.read_only then (rules.map (fun r => r.write_tools)).flatten else [])

/-- Helper `get_base_tool_name` (`src/tools/mcp_registry.py`): strip a server
prefix up to the first underscore when that first segment has length at
most 10 (`tool_name.split("_", 1)`; with an underscore present the split
has exactly two parts). -/
def get_base_tool_name (tool_name : String) : String :=
  let cs := tool_name.data
  if !cs.contains '_' then tool_name
  else if (cs.takeWhile (fun c => c != '_')).length ≤ 10 then
    ⟨(cs.dropWhile (fun c => c != '_')).drop 1⟩
  else tool_name

/-- One safe-pattern probe of `is_sensitive_file`: the pattern (lowered)
is matched against the filename and against the full normalized path. -/
def safe_probe (path pat : String) : Bool :=
  fnmatch (file_name_of path) (lower_str pat) || fnmatch (norm_path path) (lower_str pat)

/-- One sensitive-pattern probe of `is_sensitive_file`: glob match on the
filename or the full path, or — for patterns without `*` — a literal
substring test against the path. -/
def sensitive_probe (path pat : String) : Bool :=
  fnmatch (file_name_of path) (lower_str pat) || fnmatch (norm_path path) (lower_str pat) ||
    (!has_char pat '*' && str_in (lower_str pat) (norm_path path))

/-- Predicate `is_sensitive_file`: safe patterns are checked first and override;
then sensitive file patterns; then sensitive path patterns. -/
def is_sensitive_file (path : String) (config : GuardrailConfig)
    (rules : List ServerGuardrailRules) : Bool :=
  if path == "" then false
  else if (get_all_safe_patterns config rules).any (fun pat => safe_probe path pat) then
    false
  else if (get_all_sensitive_patterns config rules).any
      (fun pat => sensitive_probe path pat) then
    true
  else
    (get_all_sensitive_path_patterns rules).any
      (fun pat => fnmatch (norm_path path) (lower_str pat))

/-- Predicate `is_in_safe_zone`: a path is inside a zone if it starts with the
normalized zone, equals the zone without its trailing slash, or contains
`/zone/` as a substring of `/path/`. -/
def is_in_safe_zone (path : String) (config : GuardrailConfig) : Bool :=
  if path == "" || config.safe_zone_paths.isEmpty then false
  else
    config.safe_zone_paths.any (fun zone =>
      let zone_lower := rstrip_slash (norm_path zone) ++ "/"
      starts_with (norm_path path) zone_lower ||
        norm_path path == rstrip_slash zone_lower ||
        str_in ("/" ++ zone_lower) ("/" ++ norm_path path ++ "/"))

/-- The keyword-argument names treated as carrying file paths. -/
def path_params : List String :=
  ["path", "file", "filepath", "file_path", "filename",
   "source", "destination", "src", "dst", "paths"]

/-- The positional-argument heuristic: a string is path-shaped if it
contains `/`, `\` or `.`. -/
def looks_like_path (s : String) : Bool :=
  has_char s '/' || has_char s '\\' || has_char s '.'

/-- Heuristic `extract_paths_from_args`: path-named keyword arguments (string or
list-of-string values), then path-shaped positional strings (or strings
inside positional lists). -/
def extract_paths_from_args (args : List Val) (kwargs : List (String × Val))
    (_tool_name : String) : List String :=
  let fromKwargs := (kwargs.map (fun kv =>
    if path_params.contains (lower_str kv.1) then
      match kv.2 with
      | Val.str s => [s]
      | Val.list l => l.filterMap (fun v => match v with
          | Val.str s => some s
          | _ => none)
      | _ => []
    else [])).flatten
  let fromArgs := (args.map (fun a =>
    match a with
    | Val.str s => if looks_like_path s then [s] else []
    | Val.list l => l.filterMap (fun v => match v with
        | Val.str s => if looks_like_path s then some s else none
        | _ => none)
    | _ => [])).flatten
  fromKwargs ++ fromArgs

/-- Message of a tool blocked under a read-only policy. -/
def write_blocked_msg (tool_name : String) : String :=
  "Tool " ++ tool_name ++ " is blocked (read-only mode)"

/-- Message of an explicitly blocked tool outside read-only mode. -/
def blocked_tool_msg (tool_name : String) : String :=
  "Tool " ++ tool_name ++ " is blocked"

/-- Step 1 of `check_guardrails`: whitelist mode. Exact (case-normalized)
membership only — no prefix stripping. -/
def whitelist_check (tool_name : String) (config : GuardrailConfig) :
    Option GuardrailViolation :=
  match config.allowed_tools with
  | some allowed =>
    if (allowed.map lower_str).contains (lower_str tool_name) then none
    else some ⟨"Tool " ++ tool_name ++ " is not in the allowed tools list",
               tool_name, "not_allowed"⟩
  | none => none

/-- Step 2 of `check_guardrails`: the blocked-tool check, with the
safe-zone override under a read-only policy. `none` means fall through. -/
def blocked_check (tool_name : String) (args : List Val)
    (kwargs : List (String × Val)) (config : GuardrailConfig)
    (rules : List ServerGuardrailRules) : Option GuardrailViolation :=
  let blocked_lower := (get_all_blocked_tools config rules).map lower_str
  if blocked_lower.contains (lower_str tool_name) ||
      blocked_lower.contains (get_base_tool_name (lower_str tool_name)) then
    if config.read_only && !config.safe_zone_paths.isEmpty then
      let paths := extract_paths_from_args args kwargs tool_name
      if !paths.isEmpty && paths.all (fun p => is_in_safe_zone p config) then
        none
      else some ⟨write_blocked_msg tool_name, tool_name, "write_operation"⟩
    else if config.read_only then
      some ⟨write_blocked_msg tool_name, tool_name, "write_operation"⟩
    else some ⟨blocked_tool_msg tool_name, tool_name, "blocked_tool"⟩
  else none

/-- Step 3 of `check_guardrails`: sensitive-file access. The first
extracted path that is sensitive raises. -/
def sensitive_check (tool_name : String) (args : List Val)
    (kwargs : List (String × Val)) (config : GuardrailConfig)
    (rules : List ServerGuardrailRules) : Option GuardrailViolation :=
  if config.block_sensitive_files then
    match (extract_paths_from_args args kwargs tool_name).find?
        (fun p => is_sensitive_file p config rules) with
    | some p => some ⟨"Access to sensitive file blocked: " ++ p, tool_name,
                      "sensitive_file"⟩
    | none => none
  else none

/-- Step 4 of `check_guardrails`: registered custom checks, in
registration order; the first raised violation short-circuits. -/
def custom_checks (tool_name : String) (args : List Val)
    (kwargs : List (String × Val)) (config : GuardrailConfig)
    (rules : List ServerGuardrailRules) : Option GuardrailViolation :=
  rules.findSome? (fun r =>
    match r.custom_check with
    | some f => f tool_name args kwargs config
    | none => none)

/-- The Decision Engine `check_guardrails`. `some v` models raising the
violation `v`; `none` models passing. -/
def check_guardrails (tool_name : String) (args : List Val)
    (kwargs : List (String × Val)) (config : GuardrailConfig)
    (rules : List ServerGuardrailRules) : Option GuardrailViolation :=
  match whitelist_check tool_name config with
  | some v => some v
  | none =>
    match blocked_check tool_name args kwargs config rules with
    | some v => some v
    | none =>
      match sensitive_check tool_name args kwargs config rules with
      | some v => some v
      | none => custom_checks tool_name args kwargs config rules

/-!
The Interception Hook (`create_guardrail_hook`). A tool result is a list
of content items; the hook either forwards the call or returns the single
synthetic blocked item.
-/

/-- One item of a tool result (`{"type": ..., "text": ...}`). -/
structure TextItem where
  type : String
  text : String
deriving DecidableEq

/-- Comma-separated rendering of the safe-zone list used in the hint. -/
def join_comma : List String → String
  | [] => ""
  | [s] => s
  | s :: rest => s ++ ", " ++ join_comma rest

/-- The text of the synthetic blocked result: the `[BLOCKED]` message plus
a contextual hint keyed by the violation type. -/
def blocked_text (config : GuardrailConfig) (v : GuardrailViolation) : String :=
  let base := "[BLOCKED] " ++ v.message
  if v.violation_type == "write_operation" then
    base ++ "\n\nHINT: You can only write to safe zones: " ++
      join_comma config.safe_zone_paths ++ ". Use paths like data/filename.txt instead."
  else if v.violation_type == "sensitive_file" then
    base ++ "\n\nHINT: This file contains sensitive data and cannot be accessed."
  else base

/-- The hook made by `create_guardrail_hook(config)`: run the Decision
Engine on `(name, (), tool_args)`; convert a violation into the blocked
result; otherwise forward unmodified. -/
def guardrail_hook (config : GuardrailConfig) (rules : List ServerGuardrailRules)
    (call_tool : String → List (String × Val) → List TextItem)
    (name : String) (tool_args : List (String × Val)) : List TextItem :=
  match check_guardrails name [] tool_args config rules with
  | some v => [⟨"text", blocked_text config v⟩]
  | none => call_tool name tool_args

/-!
Principal (memory) isolation. The memory MCP server module that registers
this custom check is not among the sources (only the guardrail tests and
the registry machinery remain), so its custom check is modelled from the
specification (spec section 4.2, step 5).
-/

/-- Modelled from the spec: the isolated-write tier of memory tools
(creates/mutates principal-scoped state). The missing memory server
rule table of the missing module; tool names as exercised by the tests. -/
def isolated_write_tools : List String :=
  ["create_entities", "create_relations", "add_observations",
   "delete_entities", "delete_observations", "delete_relations"]

/-- Modelled from the spec: the isolated-read-all tier (reads all
principals' state). -/
def isolated_read_all_tools : List String := ["read_graph", "open_nodes"]

/-- Modelled from the spec: the unrestricted-read tier (search-style, no
entity targeting), always allowed regardless of principal context. -/
def unrestricted_read_tools : List String := ["search_nodes"]

/-- A string lookup in a dict value. -/
def lookup_str (d : List (String × Val)) (k : String) : Option String :=
  match d.lookup k with
  | some (Val.str s) => some s
  | _ => none

/-- Modelled from the spec: every entity/relation identifier referenced in
the arguments of a memory call (entity names, observation targets, relation
endpoints, deletion/open targets). -/
def extract_memory_identifiers (kwargs : List (String × Val)) : List String :=
  (kwargs.map (fun kv =>
    match kv.1, kv.2 with
    | "entities", Val.list l => l.filterMap (fun v => match v with
        | Val.dict d => lookup_str d "name"
        | _ => none)
    | "observations", Val.list l => l.filterMap (fun v => match v with
        | Val.dict d => lookup_str d "entityName"
        | _ => none)
    | "relations", Val.list l => (l.map (fun v => match v with
        | Val.dict d => (lookup_str d "from").toList ++ (lookup_str d "to").toList
        | _ => [])).flatten
    | "entityNames", Val.list l => l.filterMap (fun v => match v with
        | Val.str s => some s
        | _ => none)
    | "names", Val.list l => l.filterMap (fun v => match v with
        | Val.str s => some s
        | _ => none)
    | "entityName", Val.str s => [s]
    | _, _ => [])).flatten

/-- Modelled from the spec: a (possibly prefixed) tool is in a tier when
its case-normalized name or its base name is in the name-based rule
table of the tier. -/
def memory_tier_member (table : List String) (tool_name : String) : Bool :=
  table.contains (lower_str tool_name) ||
    table.contains (get_base_tool_name (lower_str tool_name))

/-- Modelled from the spec: the custom guardrail check of the memory server.
Tools are classified into the three tiers by name-based rule tables;
for the isolated tiers, a missing principal raises `memory_no_context`,
and with a principal set every referenced identifier must carry the exact
scoping prefix `scope_<principal_id>` or `memory_isolation` is raised;
the unrestricted-read tier always passes. -/
def memory_custom_check (tool_name : String) (_args : List Val)
    (kwargs : List (String × Val)) (config : GuardrailConfig) :
    Option GuardrailViolation :=
  if memory_tier_member unrestricted_read_tools tool_name then none
  else if memory_tier_member isolated_write_tools tool_name ||
      memory_tier_member isolated_read_all_tools tool_name then
    match config.current_user_id with
    | none => some ⟨"Memory access requires a principal context", tool_name,
                    "memory_no_context"⟩
    | some pid =>
      if (extract_memory_identifiers kwargs).all
          (fun i => starts_with i ("scope_" ++ pid)) then none
      else some ⟨"Memory access outside principal scope", tool_name,
                 "memory_isolation"⟩
  else none

/-- The rule set contributed by the modelled memory server: no write
tools (its blocking is done entirely by the custom check), only the
custom check. -/
def memory_rules : ServerGuardrailRules := { custom_check := some memory_custom_check }

/-!
The Playwright Session Lifecycle Tracker (`src/tools/mcp/playwright.py`).
Filesystem and subprocess effects are modelled explicitly: a cleanup call
is evaluated against a `CleanupEnv` describing whether an `mcp_call` was
supplied and whether it succeeds, which tracked files exist on disk, and
which stale temp screenshots the glob scan finds; the call returns the new
tracker state, the result dict, and the performed effects (close-tool
calls and deleted files). The wall-clock `_session_start` field is not
represented: no claim depends on it.
-/

/-- Tool names that indicate the browser is open (`BROWSER_OPEN_TOOLS`). -/
def browser_open_tools : List String :=
  ["browser_navigate", "browser_click", "browser_type", "browser_fill_form",
   "browser_take_screenshot", "browser_snapshot", "browser_hover", "browser_drag",
   "browser_select_option", "browser_press_key", "browser_evaluate",
   "browser_wait_for", "browser_handle_dialog", "browser_file_upload",
   "browser_tabs", "browser_navigate_back", "browser_network_requests",
   "browser_console_messages", "browser_run_code", "browser_resize"]

/-- State of `PlaywrightCleanupTracker`. -/
structure TrackerState where
  browser_opened : Bool := false
  browser_closed : Bool := false
  screenshot_files : List String := []
  cleanup_done : Bool := false
deriving DecidableEq

/-- Property `needs_browser_cleanup`: opened but not closed. -/
def needs_browser_cleanup (t : TrackerState) : Bool :=
  t.browser_opened && !t.browser_closed

/-- The dict returned by `cleanup`. -/
structure CleanupResult where
  browser_closed : Bool
  files_deleted : Nat
  skipped : Bool
deriving DecidableEq

/-- Environment of one `cleanup()` call: `mcp_call` is `none` when no
close function is supplied, `some b` when supplied with `b` telling
whether the close call succeeds (raises when `false`); `on_disk` tells
which tracked screenshot files exist; `stale_temp_files` are the stale
temp-directory screenshots the glob scan finds. -/
structure CleanupEnv where
  mcp_call : Option Bool := none
  on_disk : String → Bool := fun _ => false
  stale_temp_files : List String := []
  cleanup_files : Bool := true

/-- Externally visible effects of one `cleanup()` call. -/
structure CleanupEffects where
  close_calls : Nat
  deleted_files : List String
deriving DecidableEq

/-- Strip the `playwright_` / `pw_` prefix (first match only). -/
def strip_pw (tool_name : String) : String :=
  if starts_with tool_name "playwright_" then ⟨tool_name.data.drop 11⟩
  else if starts_with tool_name "pw_" then ⟨tool_name.data.drop 3⟩
  else tool_name

/-- Method `track_tool_call`: record browser open/close and screenshot paths
(a screenshot path is recorded only when it is a non-empty string). -/
def track_tool_call (t : TrackerState) (tool_name : String)
    (args : List (String × Val)) : TrackerState :=
  let base := strip_pw tool_name
  let t1 := if browser_open_tools.contains base then
      { t with browser_opened := true } else t
  let t2 := if base == "browser_close" then
      { t1 with browser_closed := true } else t1
  if base == "browser_take_screenshot" then
    match args.lookup "path" with
    | some (Val.str p) =>
      if p == "" then t2
      else { t2 with screenshot_files := t2.screenshot_files ++ [p] }
    | _ => t2
  else t2

/-- Method `cleanup_browser`: close the browser if opened-but-not-closed and a
close function is available. Returns (new state, closed?, close calls). -/
def cleanup_browser (t : TrackerState) (mcp_call : Option Bool) :
    TrackerState × Bool × Nat :=
  if !needs_browser_cleanup t then (t, false, 0)
  else
    match mcp_call with
    | some true => ({ t with browser_closed := true }, true, 1)
    | some false => (t, false, 1)
    | none => (t, false, 0)

/-- Method `cleanup_screenshot_files`: delete the tracked files that exist plus
the stale temp screenshots, clear the tracked list, return the count. -/
def cleanup_screenshot_files (t : TrackerState) (on_disk : String → Bool)
    (stale : List String) : TrackerState × Nat × List String :=
  let deleted := t.screenshot_files.filter on_disk ++ stale
  ({ t with screenshot_files := [] }, deleted.length, deleted)

/-- Method `cleanup`: full cleanup, short-circuited by the `_cleanup_done` flag. -/
def tracker_cleanup (t : TrackerState) (env : CleanupEnv) :
    TrackerState × CleanupResult × CleanupEffects :=
  if t.cleanup_done then (t, ⟨false, 0, true⟩, ⟨0, []⟩)
  else
    let b := cleanup_browser t env.mcp_call
    let fs := if env.cleanup_files then
        cleanup_screenshot_files b.1 env.on_disk env.stale_temp_files
      else (b.1, 0, [])
    ({ fs.1 with cleanup_done := true }, ⟨b.2.1, fs.2.1, false⟩,
     ⟨b.2.2, fs.2.2⟩)

/-- Method `reset`: clear all fields for reuse. -/
def tracker_reset (_t : TrackerState) : TrackerState :=
  { browser_opened := false, browser_closed := false,
    screenshot_files := [], cleanup_done := false }

/-!
Theorems for the claims. Shared helper lemmas come first; each claim then
has exactly one theorem (plus a witness where the theorem has hypotheses).
-/

theorem tracker_cleanup_done_after (t : TrackerState) (env : CleanupEnv) :
    (tracker_cleanup t env).1.cleanup_done = true := by
  unfold tracker_cleanup
  split
  · assumption
  · simp

theorem tracker_cleanup_skip (s : TrackerState) (env : CleanupEnv)
    (hs : s.cleanup_done = true) :
    tracker_cleanup s env = (s, ⟨false, 0, true⟩, ⟨0, []⟩) := by
  unfold tracker_cleanup
  simp [hs]

/-- C8: cleanup is idempotent: whatever the tracker state and the two
environments, the second of two consecutive `cleanup()` calls returns
`skipped=true` (with `browser_closed=false`, `files_deleted=0`), performs
no close calls and deletes no files, and leaves the state unchanged;
`cleanup` and `track_tool_call` never clear the `_cleanup_done` flag,
only `reset()` does. -/
theorem claim_C8 : ∀ (t : TrackerState) (env1 env2 : CleanupEnv),
    (tracker_cleanup (tracker_cleanup t env1).1 env2).2.1 =
      { browser_closed := false, files_deleted := 0, skipped := true }
    ∧ (tracker_cleanup (tracker_cleanup t env1).1 env2).2.2 =
      { close_calls := 0, deleted_files := [] }
    ∧ (tracker_cleanup (tracker_cleanup t env1).1 env2).1 = (tracker_cleanup t env1).1
    ∧ (∀ (name : String) (args : List (String × Val)),
        (track_tool_call (tracker_cleanup t env1).1 name args).cleanup_done = true)
    ∧ (tracker_reset (tracker_cleanup t env1).1).cleanup_done = false := by
  intro t env1 env2
  have h := tracker_cleanup_done_after t env1
  have hk := tracker_cleanup_skip _ env2 h
  refine ⟨by rw [hk], by rw [hk], by rw [hk], ?_, by simp [tracker_reset]⟩
  intro name args
  unfold track_tool_call
  repeat' (first | split | simp_all)

/-- C9: a single `cleanup()` marks the tracker done unconditionally:
afterwards `_cleanup_done` is true for every state and environment, and
when the browser was opened but not closed and the close could not be
performed (no close function supplied, or the close call raised), the
session stays opened-but-not-closed — `needs_browser_cleanup` still
reports true — while every subsequent `cleanup()` is skipped. -/
theorem claim_C9 : ∀ (t : TrackerState) (env env2 : CleanupEnv),
    (tracker_cleanup t env).1.cleanup_done = true
    ∧ (t.browser_opened = true → t.browser_closed = false →
        (env.mcp_call = none ∨ env.mcp_call = some false) →
        (tracker_cleanup t env).1.browser_closed = false
        ∧ needs_browser_cleanup (tracker_cleanup t env).1 = true
        ∧ (tracker_cleanup (tracker_cleanup t env).1 env2).2.1.skipped = true) := by
  intro t env env2
  refine ⟨tracker_cleanup_done_after t env, fun hbo hbc hm => ?_⟩
  have hskip : ∀ (s : TrackerState), s.cleanup_done = true →
      (tracker_cleanup s env2).2.1.skipped = true := by
    intro s hs; rw [tracker_cleanup_skip s env2 hs]
  have hstate : (tracker_cleanup t env).1.browser_closed = false
      ∧ (tracker_cleanup t env).1.browser_opened = true := by
    unfold tracker_cleanup
    split
    · exact ⟨hbc, hbo⟩
    · unfold cleanup_browser
      rcases hm with hm | hm
      all_goals rw [hm]
      all_goals simp [needs_browser_cleanup, hbo, hbc]
      all_goals split
      all_goals simp [cleanup_screenshot_files, hbc, hbo]
  refine ⟨hstate.1, ?_, hskip _ (tracker_cleanup_done_after t env)⟩
  simp [needs_browser_cleanup, hstate.1, hstate.2]

/-- C9 witness: a tracker that opened the browser, cleaned up with no
close function available, stays opened-but-not-closed and every further
cleanup is skipped. -/
theorem claim_C9_witness :
    (tracker_cleanup { browser_opened := true } {}).1.cleanup_done = true
    ∧ needs_browser_cleanup (tracker_cleanup { browser_opened := true } {}).1 = true
    ∧ (tracker_cleanup (tracker_cleanup { browser_opened := true } {}).1 {}).2.1.skipped
      = true := by
  have h := claim_C9 { browser_opened := true } {} {}
  have h2 := h.2 rfl rfl (Or.inl rfl)
  exact ⟨h.1, h2.2.1, h2.2.2⟩

/-- The rule set of a filesystem-style server registering `write_file` as
a write tool. -/
def fs_rules : ServerGuardrailRules := { write_tools := ["write_file"] }

/-- The rule set of the prefix-blocking example: `update_issue` as a
write tool. -/
def issues_rules : ServerGuardrailRules := { write_tools := ["update_issue"] }

/-- Whitelist-mode policy: only `read_file` allowed. -/
def whitelist_cfg : GuardrailConfig := { allowed_tools := some ["read_file"] }

/-- Policy with `commands.db` safe and `*.db` sensitive. -/
def db_cfg : GuardrailConfig :=
  { safe_patterns := ["commands.db"], sensitive_patterns := ["*.db"] }

/-- Read-only policy with the `data/` safe zone (the source defaults). -/
def ro_cfg : GuardrailConfig := { read_only := true, safe_zone_paths := ["data/"] }

/-- C2: a safe-pattern match (filename or full path, case-insensitive
glob) on any configured or server-registered safe pattern forces
`is_sensitive_file` to false, whatever the sensitive patterns say; in
particular `data/commands.db` is not sensitive when `commands.db` is a
safe pattern even though `*.db` is a sensitive pattern. -/
theorem claim_C2 :
    (∀ (path : String) (config : GuardrailConfig) (rules : List ServerGuardrailRules),
      (get_all_safe_patterns config rules).any (fun pat => safe_probe path pat) = true →
      is_sensitive_file path config rules = false)
    ∧ is_sensitive_file "data/commands.db" db_cfg [] = false := by
  refine ⟨?_, by decide⟩
  intro path config rules h
  unfold is_sensitive_file
  simp [h]

/-- C2 witness: the safe-pattern condition holds at `data/commands.db`
under `db_cfg` and the theorem yields non-sensitivity. -/
theorem claim_C2_witness : is_sensitive_file "data/commands.db" db_cfg [] = false :=
  claim_C2.1 "data/commands.db" db_cfg [] (by decide)

/-- C4: with the `data/` safe zone, a read-only policy, and `write_file`
registered as a write tool, writing under `data/` passes the engine
(falling through to the sensitive-file check) while writing under `src/`
raises `write_operation`. -/
theorem claim_C4 :
    check_guardrails "write_file" [] [("path", Val.str "data/out.txt")] ro_cfg [fs_rules]
      = none
    ∧ check_guardrails "write_file" [] [("path", Val.str "src/out.txt")] ro_cfg [fs_rules]
      = some ⟨write_blocked_msg "write_file", "write_file", "write_operation"⟩ := by
  constructor <;> decide

/-- C5: with `allowed_tools` set, any tool whose case-normalized name is
not an exact member raises `not_allowed` — before and regardless of any
blocked-tool rule; `read_file` passes while `write_file` (not separately
blocked) and the prefixed `gh_read_file` (exact match only, no prefix
stripping) raise `not_allowed`. -/
theorem claim_C5 :
    (∀ (tool : String) (args : List Val) (kwargs : List (String × Val))
        (config : GuardrailConfig) (rules : List ServerGuardrailRules)
        (allowed : List String),
      config.allowed_tools = some allowed →
      (allowed.map lower_str).contains (lower_str tool) = false →
      check_guardrails tool args kwargs config rules =
        some ⟨"Tool " ++ tool ++ " is not in the allowed tools list", tool, "not_allowed"⟩)
    ∧ check_guardrails "read_file" [] [] whitelist_cfg [] = none
    ∧ check_guardrails "write_file" [] [] whitelist_cfg [] =
      some ⟨"Tool write_file is not in the allowed tools list", "write_file", "not_allowed"⟩
    ∧ check_guardrails "gh_read_file" [] [] whitelist_cfg [] =
      some ⟨"Tool gh_read_file is not in the allowed tools list", "gh_read_file",
            "not_allowed"⟩ := by
  refine ⟨?_, by decide, by decide, by decide⟩
  intro tool args kwargs config rules allowed h1 h2
  have hmem : lower_str tool ∉ List.map lower_str allowed := by
    intro hm
    have h3 : (List.map lower_str allowed).contains (lower_str tool) = true :=
      List.elem_iff.mpr hm
    rw [h3] at h2
    exact absurd h2 (by simp)
  rw [List.mem_map] at hmem
  unfold check_guardrails whitelist_check
  rw [h1]
  simp [hmem]

/-- C5 witness: the whitelist part of the theorem applied to `write_file`
under `whitelist_cfg`, with a rule set that does not block it. -/
theorem claim_C5_witness :
    check_guardrails "write_file" [] [] whitelist_cfg [] =
      some ⟨"Tool write_file is not in the allowed tools list", "write_file",
            "not_allowed"⟩ :=
  claim_C5.1 "write_file" [] [] whitelist_cfg [] ["read_file"] rfl (by decide)

theorem takeWhile_append_no (l r : List Char) (h : '_' ∉ l) :
    (l ++ '_' :: r).takeWhile (fun c => c != '_') = l := by
  induction l with
  | nil => simp
  | cons c cs ih =>
    simp only [List.mem_cons, not_or] at h
    simp only [List.cons_append, List.takeWhile_cons]
    have hc : (c != '_') = true := by
      simp only [bne_iff_ne, ne_eq]
      exact Ne.symm h.1
    simp [hc, ih h.2]

theorem dropWhile_append_no (l r : List Char) (h : '_' ∉ l) :
    (l ++ '_' :: r).dropWhile (fun c => c != '_') = '_' :: r := by
  induction l with
  | nil => simp
  | cons c cs ih =>
    simp only [List.mem_cons, not_or] at h
    simp only [List.cons_append, List.dropWhile_cons]
    have hc : (c != '_') = true := by
      simp only [bne_iff_ne, ne_eq]
      exact Ne.symm h.1
    simp [hc, ih h.2]

theorem contains_append_mid (l r : List Char) :
    (l ++ '_' :: r).contains '_' = true :=
  List.elem_iff.mpr (by simp)

/-- C6: `get_base_tool_name` strips everything up to and including the
first underscore exactly when the name contains one and the first segment
has length at most 10, and otherwise returns the name unchanged; as a
consequence, registering `update_issue` as a write tool under a read-only
policy blocks both `gh_update_issue` and `sentry_update_issue` with
`write_operation` while `gh_get_issue` passes. -/
theorem claim_C6 :
    (∀ (pre post : String), '_' ∉ pre.data → pre.length ≤ 10 →
      get_base_tool_name (pre ++ "_" ++ post) = post)
    ∧ (∀ (pre post : String), '_' ∉ pre.data → 10 < pre.length →
      get_base_tool_name (pre ++ "_" ++ post) = pre ++ "_" ++ post)
    ∧ (∀ s : String, '_' ∉ s.data → get_base_tool_name s = s)
    ∧ check_guardrails "gh_update_issue" [] [] ro_cfg [issues_rules] =
      some ⟨write_blocked_msg "gh_update_issue", "gh_update_issue", "write_operation"⟩
    ∧ check_guardrails "sentry_update_issue" [] [] ro_cfg [issues_rules] =
      some ⟨write_blocked_msg "sentry_update_issue", "sentry_update_issue",
            "write_operation"⟩
    ∧ check_guardrails "gh_get_issue" [] [] ro_cfg [issues_rules] = none := by
  have hdata : ∀ (pre post : String),
      (pre ++ "_" ++ post).data = pre.data ++ '_' :: post.data := by
    intro pre post
    show (pre.data ++ ('_' :: [])) ++ post.data = pre.data ++ '_' :: post.data
    simp
  refine ⟨?_, ?_, ?_, by decide, by decide, by decide⟩
  · intro pre post hmem hlen
    unfold get_base_tool_name
    rw [hdata]
    simp only [contains_append_mid, takeWhile_append_no _ _ hmem,
      dropWhile_append_no _ _ hmem, Bool.not_true, Bool.false_eq_true, if_false]
    have hlen2 : pre.data.length ≤ 10 := hlen
    rw [if_pos hlen2]
    simp
  · intro pre post hmem hlen
    unfold get_base_tool_name
    rw [hdata]
    simp only [contains_append_mid, takeWhile_append_no _ _ hmem,
      Bool.not_true, Bool.false_eq_true, if_false]
    have hlen2 : 10 < pre.data.length := hlen
    rw [if_neg (by omega)]
  · intro s hmem
    unfold get_base_tool_name
    have : s.data.contains '_' = false := by
      cases hc : s.data.contains '_'
      · rfl
      · exact absurd (List.elem_iff.mp hc) hmem
    simp [this]
    intro h
    exact absurd h hmem

/-- C6 witness: stripping at a concrete prefixed name. -/
theorem claim_C6_witness :
    get_base_tool_name ("gh" ++ "_" ++ "update_issue") = "update_issue" :=
  claim_C6.1 "gh" "update_issue" (by decide) (by decide)

/-- C3: when the policy is read-only, the whitelist step does not fire,
and the lowercased tool name or its base name is in some registered
`write_tools` set (after case normalization), then if no extracted
argument path lies in a safe zone — in particular when no path is
extracted at all — `check_guardrails` raises `write_operation`. -/
theorem claim_C3 :
    ∀ (tool : String) (args : List Val) (kwargs : List (String × Val))
      (config : GuardrailConfig) (rules : List ServerGuardrailRules),
      config.read_only = true →
      whitelist_check tool config = none →
      (((rules.map (fun r => r.write_tools)).flatten.map lower_str).contains
          (lower_str tool)
        || ((rules.map (fun r => r.write_tools)).flatten.map lower_str).contains
          (get_base_tool_name (lower_str tool))) = true →
      (extract_paths_from_args args kwargs tool).all
        (fun p => !is_in_safe_zone p config) = true →
      check_guardrails tool args kwargs config rules =
        some ⟨write_blocked_msg tool, tool, "write_operation"⟩ := by
  intro tool args kwargs config rules hro hwl hw hsz
  have hblk : blocked_check tool args kwargs config rules =
      some ⟨write_blocked_msg tool, tool, "write_operation"⟩ := by
    unfold blocked_check
    have hcond : (((get_all_blocked_tools config rules).map lower_str).contains
          (lower_str tool)
        || ((get_all_blocked_tools config rules).map lower_str).contains
          (get_base_tool_name (lower_str tool))) = true := by
      unfold get_all_blocked_tools
      rw [hro]
      simp only [if_true]
      simp only [Bool.or_eq_true] at hw ⊢
      rcases hw with h | h
      · left
        apply List.elem_iff.mpr
        rw [List.map_append]
        exact List.mem_append_right _ (List.elem_iff.mp h)
      · right
        apply List.elem_iff.mpr
        rw [List.map_append]
        exact List.mem_append_right _ (List.elem_iff.mp h)
    simp only [hcond, if_true, hro, Bool.true_and]
    by_cases hz : config.safe_zone_paths.isEmpty
    · simp [hz, hro]
    · by_cases hp : (extract_paths_from_args args kwargs tool).isEmpty
      · simp [hz, hp]
      · have hall : (extract_paths_from_args args kwargs tool).all
            (fun p => is_in_safe_zone p config) = false := by
          obtain ⟨p, hpmem⟩ : ∃ p, p ∈ extract_paths_from_args args kwargs tool := by
            cases hl : extract_paths_from_args args kwargs tool with
            | nil => rw [hl] at hp; simp at hp
            | cons a l => exact ⟨a, List.mem_cons_self a l⟩
          have h1 := List.all_eq_true.mp hsz p hpmem
          cases hres : (extract_paths_from_args args kwargs tool).all
              (fun p => is_in_safe_zone p config)
          · rfl
          · have h2 := List.all_eq_true.mp hres p hpmem
            simp only at h1 h2
            rw [h2] at h1
            exact absurd h1 (by simp)
        simp [hz, hall]
  unfold check_guardrails
  rw [hwl, hblk]

/-- C3 witness: `write_file` registered as a write tool, read-only
policy, no paths in the call. -/
theorem claim_C3_witness :
    check_guardrails "write_file" [] [] ro_cfg [fs_rules] =
      some ⟨write_blocked_msg "write_file", "write_file", "write_operation"⟩ :=
  claim_C3 "write_file" [] [] ro_cfg [fs_rules] rfl rfl (by decide) (by decide)

/-- C7: for every policy, rule set and invocation, if the Decision Engine
raises a violation the hook returns the single-item blocked result — whose
text is `[BLOCKED] ` + message + a hint keyed by the violation type — for
every forward function (so the forward call is never consulted); if no
violation is raised, the hook returns exactly the forwarded result. -/
theorem claim_C7 :
    ∀ (config : GuardrailConfig) (rules : List ServerGuardrailRules)
      (name : String) (tool_args : List (String × Val)),
      (∀ v, check_guardrails name [] tool_args config rules = some v →
        (∀ f, guardrail_hook config rules f name tool_args =
          [⟨"text", blocked_text config v⟩])
        ∧ ∃ hint, blocked_text config v = "[BLOCKED] " ++ v.message ++ hint)
      ∧ (check_guardrails name [] tool_args config rules = none →
        ∀ f, guardrail_hook config rules f name tool_args = f name tool_args) := by
  intro config rules name tool_args
  constructor
  · intro v hv
    constructor
    · intro f
      unfold guardrail_hook
      rw [hv]
    · unfold blocked_text
      by_cases h1 : v.violation_type == "write_operation"
      · refine ⟨"\n\nHINT: You can only write to safe zones: " ++
          join_comma config.safe_zone_paths ++
          ". Use paths like data/filename.txt instead.", ?_⟩
        simp [h1, String.append_assoc]
      · by_cases h2 : v.violation_type == "sensitive_file"
        · refine ⟨"\n\nHINT: This file contains sensitive data and cannot be accessed.", ?_⟩
          simp [h1, h2, String.append_assoc]
        · exact ⟨"", by simp [h1, h2, String.append_empty]⟩
  · intro hnone f
    unfold guardrail_hook
    rw [hnone]

/-- C7 witness: a blocked invocation returns the synthetic result for any
forward function; a passing invocation returns the forwarded result. -/
theorem claim_C7_witness :
    guardrail_hook ro_cfg [issues_rules] (fun _ _ => []) "gh_update_issue" [] =
      [⟨"text", blocked_text ro_cfg ⟨write_blocked_msg "gh_update_issue",
        "gh_update_issue", "write_operation"⟩⟩]
    ∧ guardrail_hook ro_cfg [issues_rules] (fun n _ => [⟨"ok", n⟩]) "gh_get_issue" [] =
      [⟨"ok", "gh_get_issue"⟩] := by
  constructor
  · exact ((claim_C7 ro_cfg [issues_rules] "gh_update_issue" []).1 _ (by decide)).1 _
  · exact (claim_C7 ro_cfg [issues_rules] "gh_get_issue" []).2 (by decide) _

/-- Join path segments with `/` separators. A list of segments joined by
`join_segs` is exactly a path whose `split("/")` gives those segments. -/
def join_segs : List String → String
  | [] => ""
  | [s] => s
  | s :: rest => s ++ "/" ++ join_segs rest

theorem isPrefixOf_self_append : ∀ (l t : List Char), l.isPrefixOf (l ++ t) = true := by
  intro l t
  induction l with
  | nil => cases t with
    | nil => rfl
    | cons c cs => rfl
  | cons c cs ih =>
    show ((c == c) && cs.isPrefixOf (cs ++ t)) = true
    simp [ih]

theorem substr_chars_cons (n : List Char) (c : Char) (t : List Char) :
    substr_chars n (c :: t) = (n.isPrefixOf (c :: t) || substr_chars n t) := rfl

theorem substr_chars_complete :
    ∀ (s n t : List Char), substr_chars n (s ++ n ++ t) = true := by
  intro s
  induction s with
  | cons c s2 ih =>
    intro n t
    have hr : (c :: s2) ++ n ++ t = c :: (s2 ++ n ++ t) := by simp
    rw [hr, substr_chars_cons, ih n t]
    simp
  | nil =>
    intro n t
    have hr : ([] : List Char) ++ n ++ t = n ++ t := by simp
    rw [hr]
    cases n with
    | nil =>
      cases t with
      | nil => rfl
      | cons c t2 =>
        rw [show ([] : List Char) ++ (c :: t2) = c :: t2 from rfl, substr_chars_cons]
        rw [show (([] : List Char).isPrefixOf (c :: t2)) = true from rfl]
        simp
    | cons a n2 =>
      rw [show (a :: n2) ++ t = a :: (n2 ++ t) from rfl, substr_chars_cons]
      have h1 : (a :: n2).isPrefixOf (a :: (n2 ++ t)) = true :=
        isPrefixOf_self_append (a :: n2) t
      rw [h1]
      simp

theorem seg_decomp :
    ∀ (segs : List String) (zb : String), zb ∈ segs →
      ∃ s t, '/' :: (join_segs segs).data ++ ['/'] =
        s ++ ('/' :: zb.data ++ ['/']) ++ t := by
  intro segs
  induction segs with
  | nil => intro zb h; exact absurd h (List.not_mem_nil zb)
  | cons a rest ih =>
    intro zb h
    rcases List.mem_cons.mp h with rfl | hmem
    · cases rest with
      | nil => exact ⟨[], [], by simp [join_segs]⟩
      | cons b rest2 =>
        refine ⟨[], (join_segs (b :: rest2)).data ++ ['/'], ?_⟩
        show '/' :: (zb ++ "/" ++ join_segs (b :: rest2)).data ++ ['/'] = _
        show '/' :: ((zb.data ++ ['/']) ++ (join_segs (b :: rest2)).data) ++ ['/'] = _
        simp
    · cases rest with
      | nil => exact absurd hmem (List.not_mem_nil zb)
      | cons b rest2 =>
        obtain ⟨s, t, hst⟩ := ih zb hmem
        refine ⟨'/' :: a.data ++ s, t, ?_⟩
        show '/' :: (a ++ "/" ++ join_segs (b :: rest2)).data ++ ['/'] = _
        show '/' :: ((a.data ++ ['/']) ++ (join_segs (b :: rest2)).data) ++ ['/'] = _
        have : '/' :: ((a.data ++ ['/']) ++ (join_segs (b :: rest2)).data) ++ ['/'] =
            '/' :: a.data ++ ('/' :: (join_segs (b :: rest2)).data ++ ['/']) := by
          simp
        rw [this, hst]
        simp

/-- C10: safe-zone membership is segment containment, not only prefix:
whenever the normalized zone (trailing slash stripped) occurs as a
complete segment of the normalized path — equivalently the path splits on
`/` into segments one of which is the zone — `is_in_safe_zone` is true;
in particular `src/data/out.txt` and `/home/user/project/data/x.txt` are
inside the zone `data/`, and a blocked write tool is allowed to write to
them under a read-only policy. -/
theorem claim_C10 :
    (∀ (path zone : String) (config : GuardrailConfig) (segs : List String),
      zone ∈ config.safe_zone_paths →
      path ≠ "" →
      norm_path path = join_segs segs →
      rstrip_slash (norm_path zone) ∈ segs →
      is_in_safe_zone path config = true)
    ∧ is_in_safe_zone "src/data/out.txt" ro_cfg = true
    ∧ is_in_safe_zone "/home/user/project/data/x.txt" ro_cfg = true
    ∧ check_guardrails "write_file" [] [("path", Val.str "src/data/out.txt")] ro_cfg
        [fs_rules] = none := by
  refine ⟨?_, by decide, by decide, by decide⟩
  intro path zone config segs hz hpath hnorm hmem
  unfold is_in_safe_zone
  have hp : (path == "") = false := beq_false_of_ne hpath
  have hzne : config.safe_zone_paths.isEmpty = false := by
    cases hl : config.safe_zone_paths with
    | nil => rw [hl] at hz; exact absurd hz (List.not_mem_nil zone)
    | cons a l => rfl
  have h3 : str_in ("/" ++ (rstrip_slash (norm_path zone) ++ "/"))
      ("/" ++ norm_path path ++ "/") = true := by
    unfold str_in
    obtain ⟨s, t, hst⟩ := seg_decomp segs (rstrip_slash (norm_path zone)) hmem
    have hhay : ("/" ++ norm_path path ++ "/").data =
        s ++ ("/" ++ (rstrip_slash (norm_path zone) ++ "/")).data ++ t := by
      show '/' :: (norm_path path).data ++ ['/'] = _
      rw [hnorm, hst]
      rfl
    rw [hhay]
    exact substr_chars_complete s _ t
  simp only [hp, hzne, Bool.or_self, Bool.false_eq_true, if_false]
  apply List.any_eq_true.mpr
  exact ⟨zone, hz, by simp only [h3, Bool.or_true]⟩

/-- C10 witness: the universal segment-containment part applied to the
concrete mid-path occurrence of the `data` segment. -/
theorem claim_C10_witness :
    is_in_safe_zone "src/data/out.txt" { safe_zone_paths := ["data/"] } = true :=
  claim_C10.1 "src/data/out.txt" "data/" { safe_zone_paths := ["data/"] }
    ["src", "data", "out.txt"] (by decide) (by decide) (by decide) (by decide)

theorem unrestricted_name_eq (n : String)
    (h : unrestricted_read_tools.contains n = true) : n = "search_nodes" := by
  have hm := List.elem_iff.mp h
  simpa [unrestricted_read_tools] using hm

theorem tier_disjoint (tool : String)
    (h : (memory_tier_member isolated_write_tools tool
      || memory_tier_member isolated_read_all_tools tool) = true) :
    memory_tier_member unrestricted_read_tools tool = false := by
  unfold memory_tier_member at h ⊢
  cases hc : unrestricted_read_tools.contains (lower_str tool) with
  | true =>
    exfalso
    rw [unrestricted_name_eq _ hc] at h
    exact absurd h (by decide)
  | false =>
    cases hd : unrestricted_read_tools.contains (get_base_tool_name (lower_str tool)) with
    | true =>
      exfalso
      have hb := unrestricted_name_eq _ hd
      revert h hb
      generalize lower_str tool = n
      intro h hb
      simp only [Bool.or_eq_true] at h
      rcases h with (h | h) | (h | h)
      · have hm := List.elem_iff.mp h
        fin_cases hm <;> exact absurd hb (by decide)
      · rw [hb] at h
        exact absurd h (by decide)
      · have hm := List.elem_iff.mp h
        fin_cases hm <;> exact absurd hb (by decide)
      · rw [hb] at h
        exact absurd h (by decide)
    | false => simp

/-- C1 (the memory server module is absent from the sources; its custom
check is modelled from the spec): for every call on a tool of the
isolated-write or isolated-read-all tier, no principal set raises
`memory_no_context`; with a principal set, an identifier without the
`scope_<principal_id>` prefix raises `memory_isolation` and a call whose
identifiers all carry it passes this step; unrestricted-read tools always
pass this step; and for a memory-shaped call (no whitelist, no blocked
tools, no path-like arguments) the whole engine reduces to this step. -/
theorem claim_C1 :
    ∀ (tool : String) (args : List Val) (kwargs : List (String × Val))
      (config : GuardrailConfig),
      ((memory_tier_member isolated_write_tools tool
        || memory_tier_member isolated_read_all_tools tool) = true →
        (config.current_user_id = none →
          memory_custom_check tool args kwargs config =
            some ⟨"Memory access requires a principal context", tool,
                  "memory_no_context"⟩)
        ∧ (∀ pid, config.current_user_id = some pid →
          ((extract_memory_identifiers kwargs).all
              (fun i => starts_with i ("scope_" ++ pid)) = false →
            memory_custom_check tool args kwargs config =
              some ⟨"Memory access outside principal scope", tool,
                    "memory_isolation"⟩)
          ∧ ((extract_memory_identifiers kwargs).all
              (fun i => starts_with i ("scope_" ++ pid)) = true →
            memory_custom_check tool args kwargs config = none)))
      ∧ (memory_tier_member unrestricted_read_tools tool = true →
        memory_custom_check tool args kwargs config = none)
      ∧ (config.allowed_tools = none → config.blocked_tools = [] →
        extract_paths_from_args args kwargs tool = [] →
        check_guardrails tool args kwargs config [memory_rules] =
          memory_custom_check tool args kwargs config) := by
  intro tool args kwargs config
  refine ⟨?_, ?_, ?_⟩
  · intro hiso
    have hun := tier_disjoint tool hiso
    refine ⟨?_, ?_⟩
    · intro hnone
      unfold memory_custom_check
      simp only [hun, Bool.false_eq_true, if_false, hiso, if_true, hnone]
    · intro pid hsome
      constructor
      · intro hall
        unfold memory_custom_check
        simp only [hun, Bool.false_eq_true, if_false, hiso, if_true, hsome, hall]
      · intro hall
        unfold memory_custom_check
        simp only [hun, Bool.false_eq_true, if_false, hiso, if_true, hsome, hall]
  · intro hun
    unfold memory_custom_check
    simp only [hun, if_true]
  · intro ha hb hp
    have hwl : whitelist_check tool config = none := by
      unfold whitelist_check
      rw [ha]
    have hbc : blocked_check tool args kwargs config [memory_rules] = none := by
      unfold blocked_check
      have hbl : get_all_blocked_tools config [memory_rules] = [] := by
        unfold get_all_blocked_tools
        rw [hb]
        cases config.read_only <;> simp [memory_rules]
      rw [hbl]
      simp
    have hsc : sensitive_check tool args kwargs config [memory_rules] = none := by
      unfold sensitive_check
      rw [hp]
      cases config.block_sensitive_files <;> simp
    unfold check_guardrails
    rw [hwl, hbc, hsc]
    unfold custom_checks
    simp only [memory_rules]
    cases hmc : memory_custom_check tool args kwargs config <;>
      simp [List.findSome?_cons, hmc]

/-- C1 witness: with principal `U123`, creating an entity scoped to
`scope_U456` is a cross-principal access and raises `memory_isolation`. -/
theorem claim_C1_witness :
    memory_custom_check "create_entities" []
      [("entities", Val.list [Val.dict [("name", Val.str "scope_U456")]])]
      { current_user_id := some "U123" } =
      some ⟨"Memory access outside principal scope", "create_entities",
            "memory_isolation"⟩ :=
  (((claim_C1 "create_entities" []
      [("entities", Val.list [Val.dict [("name", Val.str "scope_U456")]])]
      { current_user_id := some "U123" }).1 (by decide)).2 "U123" rfl).1 (by decide)
